import Mathlib

/-!
Verification of the TCP relay hub (`src/server/server.py`, `src/tools/commands.py`,
`src/tools/backend.py`) against its natural-language specification.

The Python source is shallowly embedded: the `Commands` enum, the frame codec
(`Server.read_data` / `Server.send_data`), the registry dictionaries
(`conn_dict`, `user_dict`, modelled as insertion-ordered association lists with
Python `dict` semantics), the per-frame dispatch of `Server.create_connection`,
and the connect/disconnect bookkeeping (`handle_new_connection`,
`_display_disconnection`).  The HTTP backend is modelled as an oracle giving the
outcome of the one `requests` call a frame can make.  Python exceptions are
modelled explicitly: the relay loop's `except` clauses are reproduced exactly
(transport errors, `KeyError`), and exception kinds they do not catch
(`ValueError` from `Commands(header)`, `TypeError` from subscripting `None`,
`requests` timeouts, `IndexError`) escape the loop as they do in CPython.
-/

namespace TCPHub

/-- The `Commands` enum of `src/tools/commands.py`: the eight wire command codes. -/
inductive Commands where
  | MESSAGE
  | HELLO_WORLD
  | WELCOME
  | GOOD_BYE
  | CONN_NB
  | ADD_REACT
  | RM_REACT
  | LAST_ID
  deriving DecidableEq, Repr

/-- `Commands.<name>.value` — the integer wire value of each enum member. -/
def Commands.value : Commands → Nat
  | .MESSAGE => 0
  | .HELLO_WORLD => 1
  | .WELCOME => 2
  | .GOOD_BYE => 3
  | .CONN_NB => 4
  | .ADD_REACT => 5
  | .RM_REACT => 6
  | .LAST_ID => 7

/-- `Commands(n)` — enum lookup by value; `none` models the `ValueError`
raised by Python for a value outside the enumeration. -/
def Commands.ofValue? (n : Nat) : Option Commands :=
  match n with
  | 0 => some .MESSAGE
  | 1 => some .HELLO_WORLD
  | 2 => some .WELCOME
  | 3 => some .GOOD_BYE
  | 4 => some .CONN_NB
  | 5 => some .ADD_REACT
  | 6 => some .RM_REACT
  | 7 => some .LAST_ID
  | _ => none

/-- Python exception kinds that the relay code can raise or catch.
`connAborted` stands for the transport-failure family
(`ConnectionAbortedError`, `ConnectionResetError`, `BrokenPipeError`). -/
inductive PyError where
  | keyError
  | typeError
  | valueError (badHeader : Nat)
  | timeoutError
  | indexError
  deriving DecidableEq, Repr

instance {ε α : Type} [DecidableEq ε] [DecidableEq α] :
    DecidableEq (Except ε α) := fun a b =>
  match a, b with
  | .error x, .error y => decidable_of_iff (x = y) (by simp)
  | .error _, .ok _ => isFalse (by simp)
  | .ok _, .error _ => isFalse (by simp)
  | .ok x, .ok y => decidable_of_iff (x = y) (by simp)

/-! ## Frame codec (`Server.read_data` / `Server.send_data`)

The wire is modelled as a list of byte values.  The payload is carried at
code-point granularity (`Char.toNat`); this is faithful for the properties at
stake because the only byte the decoder inspects is the `\n` terminator
(byte 10), which in UTF-8 occurs exactly at the `'\n'` code point. -/

/-- `Server.send_data`: one command byte, then the payload (prefixed with
`server:` when `is_from_server`), then a `\n` terminator. -/
def send_data (header : Commands) (payload : String) (is_from_server : Bool) :
    List Nat :=
  let message := (if is_from_server then "server:" ++ payload else payload) ++ "\n"
  header.value :: message.toList.map Char.toNat

/-- `Server.read_data`: consume bytes until a `\n` (byte 10) or end of stream;
if nothing was read, return `(None, None)`, otherwise the first byte is the
header and the rest decodes to the payload string. -/
def read_data (stream : List Nat) : Option Nat × Option String :=
  let raw := stream.takeWhile (fun b => b ≠ 10)
  match raw with
  | [] => (none, none)
  | h :: rest => (some h, some (String.mk (rest.map Char.ofNat)))

/-! ## Python `dict` model

`conn_dict` and `user_dict` are CPython dicts: insertion-ordered, assignment
updates an existing key in place, `pop` removes it.  They are modelled as
association lists with exactly those semantics. -/

/-- Python `d[k]` lookup returning `none` for a missing key. -/
def dictGet? {α : Type} (d : List (String × α)) (k : String) : Option α :=
  match d with
  | [] => none
  | (k', v) :: rest => if k' = k then some v else dictGet? rest k

/-- Python `d[k] = v`: update in place if `k` is present, else append. -/
def dictInsert {α : Type} (d : List (String × α)) (k : String) (v : α) :
    List (String × α) :=
  match d with
  | [] => [(k, v)]
  | (k', v') :: rest =>
    if k' = k then (k, v) :: rest else (k', v') :: dictInsert rest k v

/-- Python `d.pop(k)` on a dict whose keys are unique: drop the first
entry with key `k`. -/
def dictPop {α : Type} (d : List (String × α)) (k : String) :
    List (String × α) :=
  match d with
  | [] => []
  | (k', v') :: rest => if k' = k then rest else (k', v') :: dictPop rest k

/-- The `for key, value in user_dict.items(): if value == addr: pop; break`
loop of `_display_disconnection`: remove only the FIRST entry (in insertion
order) whose value equals `addr`. -/
def popFirstByValue (d : List (String × String)) (addr : String) :
    List (String × String) :=
  match d with
  | [] => []
  | (k, v) :: rest =>
    if v = addr then rest else (k, v) :: popFirstByValue rest addr

/-- Server state: `conn_dict` (address → socket, the live ConnectionEntries,
sockets named by `Nat` identifiers) and `user_dict` (username → address,
the UsernamePresence map). -/
structure ServerState where
  conn_dict : List (String × Nat)
  user_dict : List (String × String)
  deriving DecidableEq, Repr

/-- One call to `Server.send_data` as observed at the router level:
destination socket, command, payload string, `is_from_server` flag. -/
structure Send where
  conn : Nat
  header : Commands
  payload : String
  fromServer : Bool
  deriving DecidableEq, Repr

/-- Python `str.replace(" ", "")`: delete every space character. -/
def removeSpaces (s : String) : String :=
  String.mk (s.toList.filter (fun c => c ≠ ' '))

/-- Accumulator for `pySplit`: walk the characters, cutting at each
separator. -/
def splitAux (sep : Char) : List Char → List Char → List String
  | [], acc => [String.mk acc.reverse]
  | c :: rest, acc =>
    if c = sep then String.mk acc.reverse :: splitAux sep rest []
    else splitAux sep rest (c :: acc)

/-- Python `str.split(sep)` for a one-character separator: cut at every
occurrence, keeping empty fields (`"".split(":") == [""]`,
`"a:".split(":") == ["a", ""]`). -/
def pySplit (s : String) (sep : Char) : List String :=
  splitAux sep s.toList []

/-! ## Backend oracle (`src/tools/backend.py`)

`Backend.send_message` performs one `requests.post` and returns
`response.json()` on HTTP 200, `None` otherwise; `requests` raises on
timeout.  The oracle enumerates the outcomes a single call can have. -/

/-- Outcome of the backend's `requests.post` for a `MESSAGE` frame:
HTTP 200 with a `message_id` field (an integer), HTTP 200 whose JSON body
lacks `message_id`, a non-2xx status (so `send_message` returns `None`),
or a `requests` timeout exception. -/
inductive BackendResult where
  | ok (message_id : Nat)
  | malformed
  | failure
  | timeout
  deriving DecidableEq, Repr

/-- A Python value passed as the `response_id` argument: the integer `0`
default or a string taken from the payload. -/
inductive PyVal where
  | int (n : Int)
  | str (s : String)
  deriving DecidableEq, Repr

/-- The arguments `_send_string_message` hands to `Backend.send_message`. -/
structure BackendCall where
  sender : String
  receiver : String
  message : String
  response_id : PyVal
  deriving DecidableEq, Repr

/-- `Server._send_string_message`: split the payload on `:`, take fields 0‒2
as sender/receiver/message (an `IndexError` escapes if there are fewer than
three fields), take field 3 as `response_id` exactly when the split has
length 4 (else the integer `0`), strip spaces from the receiver, call the
backend, and return `response["message_id"]`.  Subscripting the `None`
returned on a non-2xx response raises `TypeError`; a 200 body without the
key raises `KeyError`; a timeout propagates. -/
def send_string_message (payload : String) (backend : BackendResult) :
    Except PyError (BackendCall × Nat) :=
  let payload_list := pySplit payload ':'
  match payload_list with
  | s :: r :: m :: _ =>
    let response_id : PyVal :=
      if payload_list.length = 4 then .str (payload_list.getD 3 "")
      else .int 0
    let receiver := removeSpaces r
    match backend with
    | .ok message_id => .ok (⟨s, receiver, m, response_id⟩, message_id)
    | .malformed => .error .keyError
    | .failure => .error .typeError
    | .timeout => .error .timeoutError
  | _ => .error .indexError

/-- `Server._update_reaction`: parse `message_id;reaction_count` out of the
third colon field (raising `IndexError` on a malformed payload) and call
`Backend.update_reaction_nb`, whose status code is ignored; only a timeout
exception escapes. -/
def update_reaction (payload : String) (backend : BackendResult) :
    Except PyError Unit :=
  match pySplit payload ':' with
  | _ :: _ :: m :: _ =>
    match pySplit m ';' with
    | _ :: _ :: _ =>
      match backend with
      | .timeout => .error .timeoutError
      | _ => .ok ()
    | _ => .error .indexError
  | _ => .error .indexError

/-- `Server.send_message_to_backend`: `Commands(header)` (a `ValueError`
escapes for a byte outside the enumeration); for `MESSAGE` delegate to
`_send_string_message` and return its `message_id`; for `ADD_REACT` /
`RM_REACT` delegate to `_update_reaction` and return `None`; otherwise
return `None`.  The validated command is returned alongside. -/
def send_message_to_backend (header : Nat) (payload : String)
    (backend : BackendResult) : Except PyError (Commands × Option Nat) :=
  match Commands.ofValue? header with
  | none => .error (.valueError header)
  | some cmd =>
    if cmd = .MESSAGE then
      match send_string_message payload backend with
      | .ok (_, message_id) => .ok (cmd, some message_id)
      | .error e => .error e
    else if cmd = .ADD_REACT ∨ cmd = .RM_REACT then
      match update_reaction payload backend with
      | .ok _ => .ok (cmd, none)
      | .error e => .error e
    else .ok (cmd, none)

/-- `Server.__match_username_and_address`: fields 0 and 1 of the
colon-split payload are username and receiver (an `IndexError` escapes
when the payload holds no `:`); both are stripped of spaces; when the
username is not `"home"`, `user_dict[username] = address`. -/
def match_username_and_address (st : ServerState) (address payload : String) :
    Except PyError (ServerState × String) :=
  match pySplit payload ':' with
  | u :: r :: _ =>
    let username := removeSpaces u
    let receiver := removeSpaces r
    let st' :=
      if username ≠ "home" then
        { st with user_dict := dictInsert st.user_dict username address }
      else st
    .ok (st', receiver)
  | _ => .error .indexError

/-- The walrus step of `create_connection`: a truthy `message_id` (a non-zero
integer; `None` and `0` are falsy in Python) turns the payload into
`f"{message_id}:{payload}"`; otherwise the payload is left alone. -/
def relayedPayload (message_id : Option Nat) (payload : String) : String :=
  match message_id with
  | some n => if n = 0 then payload else toString n ++ ":" ++ payload
  | none => payload

/-- The body of `create_connection`'s `while True` loop for one frame with a
non-empty payload, run against a backend oracle.  Mutations and sends that
happened before an exception are kept (CPython mutates `self` in place), and
the exception — if any — is reported alongside:
1. `__match_username_and_address` (identify sender, extract receiver);
2. `send_message_to_backend` (walrus: a truthy `message_id` prefixes the
   payload with `"<message_id>:"`; the Python `int` `0` and `None` are falsy);
3. if `receiver == "home"`, send to every socket in `conn_dict` and continue;
4. otherwise, if `receiver` is in `user_dict`, send to
   `conn_dict[user_dict[receiver]]` (a `KeyError` escapes if that address has
   no connection), then send to `conn_dict[addr]` in every case (`KeyError`
   if the sender's own entry vanished). -/
def processFrame (st : ServerState) (addr : String) (header : Nat)
    (payload : String) (backend : BackendResult) :
    ServerState × List Send × Option PyError :=
  match match_username_and_address st addr payload with
  | .error e => (st, [], some e)
  | .ok (st1, receiver) =>
    match send_message_to_backend header payload backend with
    | .error e => (st1, [], some e)
    | .ok (cmd, message_id) =>
      let payload1 := relayedPayload message_id payload
      if receiver = "home" then
        (st1, st1.conn_dict.map (fun p => ⟨p.2, cmd, payload1, false⟩), none)
      else
        match dictGet? st1.user_dict receiver with
        | some raddr =>
          match dictGet? st1.conn_dict raddr with
          | none => (st1, [], some .keyError)
          | some rconn =>
            match dictGet? st1.conn_dict addr with
            | none => (st1, [⟨rconn, cmd, payload1, false⟩], some .keyError)
            | some sconn =>
              (st1, [⟨rconn, cmd, payload1, false⟩,
                     ⟨sconn, cmd, payload1, false⟩], none)
        | none =>
          match dictGet? st1.conn_dict addr with
          | none => (st1, [], some .keyError)
          | some sconn => (st1, [⟨sconn, cmd, payload1, false⟩], none)

/-- `Server.handle_new_connection`: register `conn_dict[addr] = conn`, then
send a `CONN_NB` frame with payload `str(len(conn_dict))`, marked
`is_from_server=True`, to every socket in `conn_dict` (the new one
included). -/
def handle_new_connection (st : ServerState) (addr : String) (conn : Nat) :
    ServerState × List Send :=
  let conn_dict := dictInsert st.conn_dict addr conn
  let message := toString conn_dict.length
  (⟨conn_dict, st.user_dict⟩,
   conn_dict.map (fun p => ⟨p.2, Commands.CONN_NB, message, true⟩))

/-- `Server._display_disconnection`: close the socket, `conn_dict.pop(addr)`,
remove the first `user_dict` entry whose value is `addr`, and — only when at
least one connection remains — send `CONN_NB` with `str(len(conn_dict))`,
`is_from_server=True`, to every remaining socket whose address differs from
`addr`. -/
def display_disconnection (st : ServerState) (addr : String) :
    ServerState × List Send :=
  let conn_dict := dictPop st.conn_dict addr
  let user_dict := popFirstByValue st.user_dict addr
  let sends :=
    if 1 ≤ conn_dict.length then
      (conn_dict.filter (fun p => p.1 ≠ addr)).map
        (fun p => ⟨p.2, Commands.CONN_NB, toString conn_dict.length, true⟩)
    else []
  (⟨conn_dict, user_dict⟩, sends)

/-- One inbound frame as produced by `read_data`, paired with the backend
outcome the worker would observe while handling it.  An empty payload stands
for both `read_data` results that are falsy in Python (`None` and `""`). -/
structure FrameInput where
  header : Nat
  payload : String
  backend : BackendResult
  deriving DecidableEq, Repr

/-- How a per-connection worker leaves its read loop. -/
inductive WorkerExit where
  /-- Transport failure: the `except (ConnectionAbortedError, …)` arm ran
  `_display_disconnection` (socket closed, registry cleaned, count
  broadcast). -/
  | disconnected
  /-- The `except KeyError` arm: the error is logged, but the loop is over —
  `create_connection` returns with NO cleanup of `conn_dict`/`user_dict`. -/
  | keyErrorLogged
  /-- An exception no `except` arm catches (`ValueError`, `TypeError`,
  timeout, `IndexError`): the worker thread dies, again with no cleanup. -/
  | crashed (e : PyError)
  /-- All supplied frames were processed and the worker is still in its
  loop waiting for more input. -/
  | stillRunning
  deriving DecidableEq, Repr

/-- The read loop of `Server.create_connection`, driven by a finite list of
inbound frames: an empty payload raises `ConnectionAbortedError`, which the
transport arm turns into `_display_disconnection`; a `KeyError` from the body
is logged and ends the loop; any other exception kills the worker thread.
Only when the body finishes without an exception does the loop continue. -/
def worker_loop (st : ServerState) (addr : String) :
    List FrameInput → ServerState × List Send × WorkerExit
  | [] => (st, [], .stillRunning)
  | f :: rest =>
    if f.payload = "" then
      let (st', sends) := display_disconnection st addr
      (st', sends, .disconnected)
    else
      match processFrame st addr f.header f.payload f.backend with
      | (st', sends, none) =>
        let (st'', sends', ex) := worker_loop st' addr rest
        (st'', sends ++ sends', ex)
      | (st', sends, some .keyError) => (st', sends, .keyErrorLogged)
      | (st', sends, some e) => (st', sends, .crashed e)

/-- `Server.create_connection`: `handle_new_connection` first, then the
read loop. -/
def create_connection (st : ServerState) (addr : String) (conn : Nat)
    (inputs : List FrameInput) : ServerState × List Send × WorkerExit :=
  let (st1, sends1) := handle_new_connection st addr conn
  let (st2, sends2, ex) := worker_loop st1 addr inputs
  (st2, sends1 ++ sends2, ex)

/-! ## Connection lifecycle sequences -/

/-- One hub lifecycle event: a client connects (accept + registration +
broadcast) or disconnects (transport failure observed by its worker). -/
inductive ConnOp where
  | connect (addr : String) (conn : Nat)
  | disconnect (addr : String)
  deriving DecidableEq, Repr

/-- Apply one lifecycle event to the server state. -/
def applyOp (st : ServerState) : ConnOp → ServerState × List Send
  | .connect a c => handle_new_connection st a c
  | .disconnect a => display_disconnection st a

/-- Run a sequence of lifecycle events, accumulating every send. -/
def applySeq (st : ServerState) : List ConnOp → ServerState × List Send
  | [] => (st, [])
  | op :: rest =>
    let (st', sends) := applyOp st op
    let (st'', sends') := applySeq st' rest
    (st'', sends ++ sends')

/-- Well-formedness of a lifecycle sequence against the current `conn_dict`:
each connect uses a fresh address (TCP gives every accepted socket a distinct
`ip:port`) and each disconnect names a registered one. -/
def validSeq (d : List (String × Nat)) : List ConnOp → Bool
  | [] => true
  | .connect a c :: rest =>
    (dictGet? d a).isNone && validSeq (dictInsert d a c) rest
  | .disconnect a :: rest =>
    (dictGet? d a).isSome && validSeq (dictPop d a) rest

/-- Number of `connect` events in a sequence. -/
def countConnects : List ConnOp → Nat
  | [] => 0
  | .connect _ _ :: rest => countConnects rest + 1
  | .disconnect _ :: rest => countConnects rest

/-- Number of `disconnect` events in a sequence. -/
def countDisconnects : List ConnOp → Nat
  | [] => 0
  | .connect _ _ :: rest => countDisconnects rest
  | .disconnect _ :: rest => countDisconnects rest + 1

/-! ## Theorems -/

theorem toList_append (a b : String) : (a ++ b).toList = a.toList ++ b.toList :=
  String.data_append ..

theorem map_ofNat_map_toNat (l : List Char) :
    (l.map Char.toNat).map Char.ofNat = l := by
  induction l with
  | nil => rfl
  | cons c rest ih => simp only [List.map_cons, Char.ofNat_toNat, ih]

/-- Decoding an encoded frame yields the command's wire byte and the
payload exactly as `send_data` framed it (with the `server:` prefix kept,
since `read_data` does not strip it). -/
theorem read_data_send_data (cmd : Commands) (payload : String)
    (fromServer : Bool) (hnl : ∀ c ∈ payload.toList, c ≠ '\n') :
    read_data (send_data cmd payload fromServer) =
      (some cmd.value,
       some (if fromServer then "server:" ++ payload else payload)) := by
  have hv : (decide (cmd.value ≠ 10)) = true := by cases cmd <;> decide
  set pre : String := if fromServer then "server:" ++ payload else payload with hpre
  have hmsg : (pre ++ "\n").toList = pre.toList ++ ['\n'] := toList_append ..
  have hall : ∀ b ∈ pre.toList.map Char.toNat, (decide (b ≠ 10)) = true := by
    intro b hb
    simp only [List.mem_map] at hb
    obtain ⟨c, hc, rfl⟩ := hb
    have hcne : c ≠ '\n' := by
      rw [hpre] at hc
      cases fromServer with
      | false => exact hnl c hc
      | true =>
        rw [if_pos rfl, toList_append] at hc
        rcases List.mem_append.mp hc with h | h
        · intro hEq; rw [hEq] at h; revert h; decide
        · exact hnl c h
    simp only [decide_eq_true_iff]
    intro h10
    apply hcne
    have hofn := congrArg Char.ofNat h10
    rwa [Char.ofNat_toNat] at hofn
  have hstep : ∀ rest : List Nat,
      List.takeWhile (fun b => decide (b ≠ 10)) (cmd.value :: rest)
        = cmd.value :: List.takeWhile (fun b => decide (b ≠ 10)) rest :=
    fun _ => List.takeWhile_cons_of_pos hv
  have happ :
      List.takeWhile (fun b => decide (b ≠ 10))
          (pre.toList.map Char.toNat ++ ['\n'].map Char.toNat)
        = pre.toList.map Char.toNat ++
            List.takeWhile (fun b => decide (b ≠ 10)) (['\n'].map Char.toNat) :=
    List.takeWhile_append_of_pos hall
  show read_data (cmd.value :: (pre ++ "\n").toList.map Char.toNat) = _
  rw [hmsg, List.map_append]
  unfold read_data
  rw [hstep, happ,
      show List.takeWhile (fun b => decide (b ≠ 10)) (['\n'].map Char.toNat)
        = [] from rfl,
      List.append_nil]
  show (some cmd.value,
        some (String.mk ((pre.toList.map Char.toNat).map Char.ofNat)))
      = (some cmd.value, some pre)
  rw [map_ofNat_map_toNat]
  rfl

/-- C4 (confirmed): for every command, newline-free payload and
`fromServer` flag, `read_data` on the bytes produced by `send_data`
recovers the same command (the decoded byte maps back to `cmd` through the
enum) and a payload equal to the original once the 7-character `server:`
prefix is stripped when `fromServer` is true (no stripping otherwise). -/
theorem C4_codec_roundtrip (cmd : Commands) (payload : String)
    (fromServer : Bool) (hnl : ∀ c ∈ payload.toList, c ≠ '\n') :
    ∃ h p, read_data (send_data cmd payload fromServer) = (some h, some p) ∧
      Commands.ofValue? h = some cmd ∧
      p = (if fromServer then "server:" ++ payload else payload) ∧
      p.toList.drop (if fromServer then 7 else 0) = payload.toList := by
  refine ⟨cmd.value, if fromServer then "server:" ++ payload else payload,
    read_data_send_data cmd payload fromServer hnl, ?_, rfl, ?_⟩
  · cases cmd <;> rfl
  · cases fromServer with
    | false => simp
    | true =>
      rw [if_pos rfl, if_pos rfl, toList_append,
          show (7 : Nat) = ("server:" : String).toList.length from rfl,
          List.drop_left]

theorem C4_codec_roundtrip_witness :
    (∀ c ∈ ("alice:bob:hello" : String).toList, c ≠ '\n') ∧
    (∃ h p, read_data (send_data .MESSAGE "alice:bob:hello" true) =
        (some h, some p) ∧
      Commands.ofValue? h = some .MESSAGE ∧
      p = (if true then "server:" ++ "alice:bob:hello" else "alice:bob:hello") ∧
      p.toList.drop (if true then 7 else 0) =
        ("alice:bob:hello" : String).toList) :=
  ⟨by decide, C4_codec_roundtrip .MESSAGE "alice:bob:hello" true (by decide)⟩

/-- C9 (confirmed): when a `MESSAGE` payload splits on `:` into five or more
fields, the text handed to the backend's `createMessage` is only the third
field and the `response_id` is the integer `0` — everything after the third
colon is dropped from persistence — while the relayed payload (here via the
`home` broadcast route) is the full original, id-prefixed; the fourth field
is used as `response_id` exactly when the split has exactly four fields. -/
theorem C9_persistence_truncation (payload f1 f2 f3 f4 f5 : String)
    (rest : List String) (id : Nat)
    (hsplit : pySplit payload ':' = f1 :: f2 :: f3 :: f4 :: f5 :: rest) :
    send_string_message payload (.ok id)
      = .ok (⟨f1, removeSpaces f2, f3, .int 0⟩, id)
    ∧ (∀ (payload' g1 g2 g3 g4 : String),
        pySplit payload' ':' = [g1, g2, g3, g4] →
        send_string_message payload' (.ok id)
          = .ok (⟨g1, removeSpaces g2, g3, .str g4⟩, id))
    ∧ (∀ (st st1 : ServerState) (addr recv : String),
        match_username_and_address st addr payload = .ok (st1, recv) →
        recv = "home" → id ≠ 0 →
        processFrame st addr 0 payload (.ok id)
          = (st1,
             st1.conn_dict.map
               (fun p => ⟨p.2, .MESSAGE, toString id ++ ":" ++ payload, false⟩),
             none)) := by
  have hmain : send_string_message payload (.ok id)
      = .ok (⟨f1, removeSpaces f2, f3, .int 0⟩, id) := by
    simp only [send_string_message, hsplit, List.length_cons]
    rw [if_neg (by omega)]
  refine ⟨hmain, ?_, ?_⟩
  · intro payload' g1 g2 g3 g4 hsp
    simp only [send_string_message, hsp, List.length_cons, List.length_nil]
    rfl
  · intro st st1 addr recv hmatch hrecv hid
    subst hrecv
    simp only [processFrame, hmatch, send_message_to_backend,
      Commands.ofValue?, hmain, if_pos rfl, if_true, relayedPayload,
      if_neg hid]

theorem C9_persistence_truncation_witness :
    pySplit "alice:bob:he:llo:x" ':'
      = "alice" :: "bob" :: "he" :: "llo" :: "x" :: ([] : List String) ∧
    (send_string_message "alice:bob:he:llo:x" (.ok 7)
      = .ok (⟨"alice", removeSpaces "bob", "he", .int 0⟩, 7)
    ∧ (∀ (payload' g1 g2 g3 g4 : String),
        pySplit payload' ':' = [g1, g2, g3, g4] →
        send_string_message payload' (.ok 7)
          = .ok (⟨g1, removeSpaces g2, g3, .str g4⟩, 7))
    ∧ (∀ (st st1 : ServerState) (addr recv : String),
        match_username_and_address st addr "alice:bob:he:llo:x"
          = .ok (st1, recv) →
        recv = "home" → 7 ≠ 0 →
        processFrame st addr 0 "alice:bob:he:llo:x" (.ok 7)
          = (st1,
             st1.conn_dict.map
               (fun p => ⟨p.2, .MESSAGE,
                          toString 7 ++ ":" ++ "alice:bob:he:llo:x", false⟩),
             none))) :=
  ⟨by decide,
   C9_persistence_truncation "alice:bob:he:llo:x" "alice" "bob" "he" "llo" "x"
     [] 7 (by decide)⟩

/-- C1 (code bug): persistence failure DOES prevent delivery.  With `alice`
on connection 1 and `bob` registered on connection 2, an inbound `MESSAGE`
`alice:bob:hello` whose backend call fails is relayed to NOBODY (the send
list is empty): a non-2xx response makes `Backend.send_message` return
`None`, and `_send_string_message` unconditionally subscripts it
(`TypeError`); a timeout exception propagates; a 200 body without
`message_id` raises `KeyError`.  None of these reach the relay code, and
each ends the worker loop. -/
theorem C1_persistence_failure_blocks_delivery :
    (worker_loop ⟨[("a1", 1), ("a2", 2)], [("bob", "a2")]⟩ "a1"
        [⟨0, "alice:bob:hello", .failure⟩]
      = (⟨[("a1", 1), ("a2", 2)], [("bob", "a2"), ("alice", "a1")]⟩, [],
         .crashed .typeError))
    ∧ (worker_loop ⟨[("a1", 1), ("a2", 2)], [("bob", "a2")]⟩ "a1"
        [⟨0, "alice:bob:hello", .timeout⟩]
      = (⟨[("a1", 1), ("a2", 2)], [("bob", "a2"), ("alice", "a1")]⟩, [],
         .crashed .timeoutError))
    ∧ (worker_loop ⟨[("a1", 1), ("a2", 2)], [("bob", "a2")]⟩ "a1"
        [⟨0, "alice:bob:hello", .malformed⟩]
      = (⟨[("a1", 1), ("a2", 2)], [("bob", "a2"), ("alice", "a1")]⟩, [],
         .keyErrorLogged)) := by
  decide

/-- C2 counterexample: a frame with command byte 8 (outside the
enumeration) from `a1` makes that worker crash with the invalid-command
`ValueError`, but the hub does NOT remove the connection's registry entry:
`conn_dict` still holds `a1` afterwards (and no cleanup broadcast is
sent), contradicting "dropping exactly that one connection (closing it and
removing its registry entry)". -/
theorem C2_counterexample :
    worker_loop ⟨[("a1", 1), ("a2", 2)], []⟩ "a1" [⟨8, "alice:bob:hi", .ok 1⟩]
      = (⟨[("a1", 1), ("a2", 2)], [("alice", "a1")]⟩, [],
         .crashed (.valueError 8))
    ∧ dictGet? (worker_loop ⟨[("a1", 1), ("a2", 2)], []⟩ "a1"
        [⟨8, "alice:bob:hi", .ok 1⟩]).1.conn_dict "a1" = some 1 := by
  decide

/-- C2 (amended): a received frame whose command byte is outside the
`Commands` enumeration makes dispatch fail with an invalid-command
`ValueError` that no handler catches, so only that connection's worker
terminates (no further frames from it are served, nothing is relayed for
the offending frame) and every other live connection is untouched — but
the dead connection's socket is not closed and its `conn_dict` entry is
NOT removed: `conn_dict` is left exactly as it was. -/
theorem C2_invalid_command_no_cleanup (st : ServerState)
    (addr payload recv : String) (header : Nat) (backend : BackendResult)
    (rest : List FrameInput) (st1 : ServerState)
    (hbad : Commands.ofValue? header = none) (hpay : payload ≠ "")
    (hmatch : match_username_and_address st addr payload = .ok (st1, recv)) :
    worker_loop st addr (⟨header, payload, backend⟩ :: rest)
      = (st1, [], .crashed (.valueError header))
    ∧ st1.conn_dict = st.conn_dict := by
  constructor
  · simp only [worker_loop, if_neg hpay, processFrame, hmatch,
      send_message_to_backend, hbad]
  · unfold match_username_and_address at hmatch
    cases hsp : pySplit payload ':' with
    | nil => rw [hsp] at hmatch; exact absurd hmatch (by simp)
    | cons u t =>
      cases t with
      | nil => rw [hsp] at hmatch; exact absurd hmatch (by simp)
      | cons r t2 =>
        rw [hsp] at hmatch
        simp only [Except.ok.injEq, Prod.mk.injEq] at hmatch
        obtain ⟨hst1, -⟩ := hmatch
        rw [← hst1]
        by_cases hu : removeSpaces u ≠ "home"
        · rw [if_pos hu]
        · rw [if_neg hu]

theorem C2_invalid_command_no_cleanup_witness :
    Commands.ofValue? 8 = none ∧ ("alice:bob:hi" : String) ≠ "" ∧
    match_username_and_address ⟨[("a1", 1), ("a2", 2)], []⟩ "a1" "alice:bob:hi"
      = .ok (⟨[("a1", 1), ("a2", 2)], [("alice", "a1")]⟩, "bob") ∧
    (worker_loop ⟨[("a1", 1), ("a2", 2)], []⟩ "a1"
        [⟨8, "alice:bob:hi", .ok 1⟩]
      = (⟨[("a1", 1), ("a2", 2)], [("alice", "a1")]⟩, [],
         .crashed (.valueError 8))
    ∧ (⟨[("a1", 1), ("a2", 2)], [("alice", "a1")]⟩ : ServerState).conn_dict
        = (⟨[("a1", 1), ("a2", 2)], []⟩ : ServerState).conn_dict) :=
  ⟨by decide, by decide, by decide,
   C2_invalid_command_no_cleanup ⟨[("a1", 1), ("a2", 2)], []⟩ "a1"
     "alice:bob:hi" "bob" 8 (.ok 1) [] ⟨[("a1", 1), ("a2", 2)], [("alice", "a1")]⟩
     (by decide) (by decide) (by decide)⟩

/-- C8 counterexample: with `bob` stale in `user_dict` (mapped to address
`ghost`, which has no connection), a frame addressed to `bob` raises the
registry-miss `KeyError`; it is logged, but the loop does NOT continue —
the immediately following well-formed frame is never processed (no sends
at all, the worker has exited). -/
theorem C8_counterexample :
    worker_loop ⟨[("a1", 1)], [("bob", "ghost")]⟩ "a1"
        [⟨0, "alice:bob:hi", .ok 5⟩, ⟨1, "alice:home:hi2", .ok 0⟩]
      = (⟨[("a1", 1)], [("bob", "ghost"), ("alice", "a1")]⟩, [],
         .keyErrorLogged) := by
  decide

/-- C8 (amended): a `KeyError`-style registry lookup miss during dispatch
is caught by the worker's `except KeyError` arm and logged, but that arm
sits OUTSIDE the `while` loop: the worker's read loop terminates rather
than continuing, subsequent frames from that connection are never
processed, and no disconnect cleanup runs; exceptions outside both the
transport-failure set and `KeyError` are not caught at all and also end
the worker. -/
theorem C8_keyerror_ends_loop (st : ServerState) (addr : String)
    (f : FrameInput) (rest : List FrameInput) (st' : ServerState)
    (sends : List Send) (hpay : f.payload ≠ "")
    (hproc : processFrame st addr f.header f.payload f.backend
      = (st', sends, some .keyError)) :
    worker_loop st addr (f :: rest) = (st', sends, .keyErrorLogged) := by
  simp only [worker_loop, if_neg hpay, hproc]

theorem C8_keyerror_ends_loop_witness :
    (⟨0, "alice:bob:hi", .ok 5⟩ : FrameInput).payload ≠ "" ∧
    processFrame ⟨[("a1", 1)], [("bob", "ghost")]⟩ "a1" 0 "alice:bob:hi"
        (.ok 5)
      = (⟨[("a1", 1)], [("bob", "ghost"), ("alice", "a1")]⟩, [],
         some .keyError) ∧
    worker_loop ⟨[("a1", 1)], [("bob", "ghost")]⟩ "a1"
        [⟨0, "alice:bob:hi", .ok 5⟩, ⟨1, "alice:home:hi2", .ok 0⟩]
      = (⟨[("a1", 1)], [("bob", "ghost"), ("alice", "a1")]⟩, [],
         .keyErrorLogged) :=
  ⟨by decide, by decide,
   C8_keyerror_ends_loop ⟨[("a1", 1)], [("bob", "ghost")]⟩ "a1"
     ⟨0, "alice:bob:hi", .ok 5⟩ [⟨1, "alice:home:hi2", .ok 0⟩]
     ⟨[("a1", 1)], [("bob", "ghost"), ("alice", "a1")]⟩ []
     (by decide) (by decide)⟩

theorem mem_of_dictGet? {α : Type} {d : List (String × α)} {k : String}
    {v : α} (h : dictGet? d k = some v) : (k, v) ∈ d := by
  induction d with
  | nil => simp [dictGet?] at h
  | cons q rest ih =>
    obtain ⟨k', v'⟩ := q
    unfold dictGet? at h
    by_cases hk : k' = k
    · rw [if_pos hk] at h
      injection h with h
      rw [← hk, ← h]
      exact List.mem_cons_self _ _
    · rw [if_neg hk] at h
      exact List.mem_cons_of_mem _ (ih h)

theorem dictGet?_eq_none_of_all_ne {α : Type} {d : List (String × α)}
    {k : String} (h : ∀ p ∈ d, p.1 ≠ k) : dictGet? d k = none := by
  induction d with
  | nil => rfl
  | cons q rest ih =>
    unfold dictGet?
    rw [if_neg (h q (List.mem_cons_self q rest))]
    exact ih (fun p hp => h p (List.mem_cons_of_mem _ hp))

theorem dictPop_all_ne {α : Type} {d : List (String × α)} {k : String}
    (hnd : (d.map Prod.fst).Nodup) : ∀ p ∈ dictPop d k, p.1 ≠ k := by
  induction d with
  | nil => intro p hp; simp [dictPop] at hp
  | cons q rest ih =>
    obtain ⟨k', v'⟩ := q
    simp only [List.map_cons, List.nodup_cons] at hnd
    obtain ⟨hk', hrest⟩ := hnd
    intro p hp
    unfold dictPop at hp
    by_cases hk : k' = k
    · rw [if_pos hk] at hp
      subst hk
      intro hpk
      exact hk' (hpk ▸ List.mem_map_of_mem Prod.fst hp)
    · rw [if_neg hk] at hp
      rcases List.mem_cons.mp hp with h | h
      · rw [h]; exact hk
      · exact ih hrest p h

theorem popFirstByValue_all_ne {d : List (String × String)} {addr : String}
    (hone : (d.filter (fun p => p.2 = addr)).length ≤ 1) :
    ∀ p ∈ popFirstByValue d addr, p.2 ≠ addr := by
  induction d with
  | nil => intro p hp; simp [popFirstByValue] at hp
  | cons q rest ih =>
    obtain ⟨k, v⟩ := q
    intro p hp
    unfold popFirstByValue at hp
    by_cases hv : v = addr
    · rw [if_pos hv] at hp
      have hfc : ((k, v) :: rest).filter (fun p => decide (p.2 = addr))
          = (k, v) :: rest.filter (fun p => decide (p.2 = addr)) :=
        List.filter_cons_of_pos (by simpa using hv)
      rw [hfc, List.length_cons] at hone
      have hnil : rest.filter (fun p => decide (p.2 = addr)) = [] :=
        List.length_eq_zero.mp (by omega)
      intro hpk
      have hmem : p ∈ rest.filter (fun p => decide (p.2 = addr)) :=
        List.mem_filter.mpr ⟨hp, by simpa using hpk⟩
      rw [hnil] at hmem
      simp at hmem
    · rw [if_neg hv] at hp
      rcases List.mem_cons.mp hp with h | h
      · rw [h]; exact hv
      · refine ih ?_ p h
        have hfc : ((k, v) :: rest).filter (fun p => decide (p.2 = addr))
            = rest.filter (fun p => decide (p.2 = addr)) :=
          List.filter_cons_of_neg (by simpa using hv)
        rw [hfc] at hone
        exact hone

/-- C3 counterexample: the sequence "a1 connects; a1 identifies as `alice`;
a1 identifies as `bob`; a1 disconnects" (two usernames mapping to the same
address) leaves `user_dict` with the stale entry `bob ↦ a1` even though
`a1` has no live ConnectionEntry any more: `_display_disconnection`'s scan
`break`s after the first matching username it pops. -/
theorem C3_counterexample :
    dictGet? (create_connection ⟨[], []⟩ "a1" 1
        [⟨1, "alice:x:hi", .ok 0⟩, ⟨1, "bob:x:hi", .ok 0⟩,
         ⟨1, "", .ok 0⟩]).1.user_dict "bob" = some "a1"
    ∧ dictGet? (create_connection ⟨[], []⟩ "a1" 1
        [⟨1, "alice:x:hi", .ok 0⟩, ⟨1, "bob:x:hi", .ok 0⟩,
         ⟨1, "", .ok 0⟩]).1.conn_dict "a1" = none := by
  decide

/-- C3 (amended): removing a ConnectionEntry removes the address from
`conn_dict` and the FIRST `user_dict` entry (in insertion order) whose
value is that address; when at most one username maps to the address this
removes every UsernamePresence entry referencing it, so the no-stale-entry
invariant holds — but when two or more usernames map to the same address,
the later ones survive as stale entries (see the counterexample). -/
theorem C3_unregister_first_match (st : ServerState) (addr : String)
    (hnd : (st.conn_dict.map Prod.fst).Nodup)
    (hone : (st.user_dict.filter (fun p => p.2 = addr)).length ≤ 1) :
    (∀ p ∈ (display_disconnection st addr).1.user_dict, p.2 ≠ addr)
    ∧ dictGet? (display_disconnection st addr).1.conn_dict addr = none := by
  constructor
  · intro p hp
    exact popFirstByValue_all_ne hone p hp
  · exact dictGet?_eq_none_of_all_ne (dictPop_all_ne hnd)

theorem C3_unregister_first_match_witness :
    ((⟨[("a1", 1)], [("alice", "a1")]⟩ : ServerState).conn_dict.map
        Prod.fst).Nodup
    ∧ ((⟨[("a1", 1)], [("alice", "a1")]⟩ : ServerState).user_dict.filter
        (fun p => p.2 = "a1")).length ≤ 1
    ∧ ((∀ p ∈ (display_disconnection ⟨[("a1", 1)], [("alice", "a1")]⟩
          "a1").1.user_dict, p.2 ≠ "a1")
      ∧ dictGet? (display_disconnection ⟨[("a1", 1)], [("alice", "a1")]⟩
          "a1").1.conn_dict "a1" = none) :=
  ⟨by decide, by decide,
   C3_unregister_first_match ⟨[("a1", 1)], [("alice", "a1")]⟩ "a1"
     (by decide) (by decide)⟩

/-- C5 (confirmed): for an inbound frame whose stripped receiver field is
not `"home"` and whose dispatch raises nothing, the (possibly id-prefixed)
payload goes to the resolved receiver's connection when the receiver
username is in `user_dict` (first conjunct), and in all cases it also goes
back to the sender's own connection, in particular even when the receiver
does not resolve (second conjunct).  With payload `alice:bob:hello` and the
backend returning `message_id` 42, both `bob`'s and `alice`'s connections
receive `42:alice:bob:hello` (see the witness). -/
theorem C5_unicast_relay_and_echo (st st1 : ServerState)
    (addr payload recv : String) (header : Nat) (backend : BackendResult)
    (cmd : Commands) (message_id : Option Nat)
    (hmatch : match_username_and_address st addr payload = .ok (st1, recv))
    (hrecv : recv ≠ "home")
    (hb : send_message_to_backend header payload backend
      = .ok (cmd, message_id)) :
    (∀ raddr rconn sconn,
      dictGet? st1.user_dict recv = some raddr →
      dictGet? st1.conn_dict raddr = some rconn →
      dictGet? st1.conn_dict addr = some sconn →
      processFrame st addr header payload backend
        = (st1, [⟨rconn, cmd, relayedPayload message_id payload, false⟩,
                 ⟨sconn, cmd, relayedPayload message_id payload, false⟩],
           none))
    ∧ (∀ sconn,
      dictGet? st1.user_dict recv = none →
      dictGet? st1.conn_dict addr = some sconn →
      processFrame st addr header payload backend
        = (st1, [⟨sconn, cmd, relayedPayload message_id payload, false⟩],
           none)) := by
  constructor
  · intro raddr rconn sconn hres hrc hsc
    simp only [processFrame, hmatch, hb, if_neg hrecv, hres, hrc, hsc]
  · intro sconn hres hsc
    simp only [processFrame, hmatch, hb, if_neg hrecv, hres, hsc]

theorem C5_unicast_relay_and_echo_witness :
    match_username_and_address ⟨[("a1", 1), ("a2", 2)], [("bob", "a2")]⟩ "a1"
        "alice:bob:hello"
      = .ok (⟨[("a1", 1), ("a2", 2)], [("bob", "a2"), ("alice", "a1")]⟩,
             "bob") ∧
    ("bob" : String) ≠ "home" ∧
    send_message_to_backend 0 "alice:bob:hello" (.ok 42)
      = .ok (.MESSAGE, some 42) ∧
    ((∀ raddr rconn sconn,
      dictGet? [("bob", "a2"), ("alice", "a1")] "bob" = some raddr →
      dictGet? [("a1", 1), ("a2", 2)] raddr = some rconn →
      dictGet? [("a1", 1), ("a2", 2)] "a1" = some sconn →
      processFrame ⟨[("a1", 1), ("a2", 2)], [("bob", "a2")]⟩ "a1" 0
          "alice:bob:hello" (.ok 42)
        = (⟨[("a1", 1), ("a2", 2)], [("bob", "a2"), ("alice", "a1")]⟩,
           [⟨rconn, .MESSAGE, relayedPayload (some 42) "alice:bob:hello",
             false⟩,
            ⟨sconn, .MESSAGE, relayedPayload (some 42) "alice:bob:hello",
             false⟩],
           none))
    ∧ (∀ sconn,
      dictGet? [("bob", "a2"), ("alice", "a1")] "bob" = none →
      dictGet? [("a1", 1), ("a2", 2)] "a1" = some sconn →
      processFrame ⟨[("a1", 1), ("a2", 2)], [("bob", "a2")]⟩ "a1" 0
          "alice:bob:hello" (.ok 42)
        = (⟨[("a1", 1), ("a2", 2)], [("bob", "a2"), ("alice", "a1")]⟩,
           [⟨sconn, .MESSAGE, relayedPayload (some 42) "alice:bob:hello",
             false⟩],
           none)))
    ∧ relayedPayload (some 42) "alice:bob:hello" = "42:alice:bob:hello" :=
  ⟨by decide, by decide, by decide,
   C5_unicast_relay_and_echo ⟨[("a1", 1), ("a2", 2)], [("bob", "a2")]⟩
     ⟨[("a1", 1), ("a2", 2)], [("bob", "a2"), ("alice", "a1")]⟩
     "a1" "alice:bob:hello" "bob" 0 (.ok 42) .MESSAGE (some 42)
     (by decide) (by decide) (by decide),
   by decide⟩

/-- C6 (confirmed): when the stripped receiver field is `"home"` and
dispatch raises nothing, the (possibly id-prefixed) payload is sent to
every entry of `conn_dict` exactly once — the send list IS the map over
`conn_dict`, its length equals the number of live connections, and no
extra echo to the sender is appended; the sender's own connection is one
of the recipients whenever it is registered. -/
theorem C6_home_broadcast (st st1 : ServerState) (addr payload : String)
    (header : Nat) (backend : BackendResult) (cmd : Commands)
    (message_id : Option Nat)
    (hmatch : match_username_and_address st addr payload = .ok (st1, "home"))
    (hb : send_message_to_backend header payload backend
      = .ok (cmd, message_id)) :
    processFrame st addr header payload backend
      = (st1,
         st1.conn_dict.map
           (fun p => ⟨p.2, cmd, relayedPayload message_id payload, false⟩),
         none)
    ∧ (st1.conn_dict.map
        (fun p => ⟨p.2, cmd, relayedPayload message_id payload,
                   false⟩) : List Send).length = st1.conn_dict.length
    ∧ (∀ sconn, dictGet? st1.conn_dict addr = some sconn →
        (⟨sconn, cmd, relayedPayload message_id payload, false⟩ : Send)
          ∈ st1.conn_dict.map
              (fun p => ⟨p.2, cmd, relayedPayload message_id payload,
                         false⟩)) := by
  refine ⟨?_, List.length_map .., ?_⟩
  · simp only [processFrame, hmatch, hb, if_pos rfl, if_true]
  · intro sconn hsc
    exact List.mem_map_of_mem _ (mem_of_dictGet? hsc)

theorem C6_home_broadcast_witness :
    match_username_and_address ⟨[("a1", 1), ("a2", 2)], []⟩ "a1"
        "alice:home:hey"
      = .ok (⟨[("a1", 1), ("a2", 2)], [("alice", "a1")]⟩, "home") ∧
    send_message_to_backend 0 "alice:home:hey" (.ok 7)
      = .ok (.MESSAGE, some 7) ∧
    (processFrame ⟨[("a1", 1), ("a2", 2)], []⟩ "a1" 0 "alice:home:hey"
        (.ok 7)
      = (⟨[("a1", 1), ("a2", 2)], [("alice", "a1")]⟩,
         ([("a1", 1), ("a2", 2)] : List (String × Nat)).map
           (fun p => ⟨p.2, .MESSAGE, relayedPayload (some 7) "alice:home:hey",
                      false⟩),
         none)
    ∧ (([("a1", 1), ("a2", 2)] : List (String × Nat)).map
        (fun p => ⟨p.2, .MESSAGE, relayedPayload (some 7) "alice:home:hey",
                   false⟩) : List Send).length
        = ([("a1", 1), ("a2", 2)] : List (String × Nat)).length
    ∧ (∀ sconn, dictGet? [("a1", 1), ("a2", 2)] "a1" = some sconn →
        (⟨sconn, .MESSAGE, relayedPayload (some 7) "alice:home:hey",
          false⟩ : Send)
          ∈ ([("a1", 1), ("a2", 2)] : List (String × Nat)).map
              (fun p => ⟨p.2, .MESSAGE,
                         relayedPayload (some 7) "alice:home:hey",
                         false⟩))) :=
  ⟨by decide, by decide,
   C6_home_broadcast ⟨[("a1", 1), ("a2", 2)], []⟩
     ⟨[("a1", 1), ("a2", 2)], [("alice", "a1")]⟩ "a1" "alice:home:hey" 0
     (.ok 7) .MESSAGE (some 7) (by decide) (by decide)⟩

/-- C10 (confirmed): when the receiver field resolves in `user_dict` to the
sender's OWN address (e.g. a client messaging its own username — note the
identify step makes the sender's username resolve to its address before
routing), the hub sends the payload to the sender's connection twice for
that single frame: once as resolved receiver, once as the unconditional
sender echo. -/
theorem C10_self_message_double_delivery (st st1 : ServerState)
    (addr payload recv : String) (header : Nat) (backend : BackendResult)
    (cmd : Commands) (message_id : Option Nat) (sconn : Nat)
    (hmatch : match_username_and_address st addr payload = .ok (st1, recv))
    (hrecv : recv ≠ "home")
    (hb : send_message_to_backend header payload backend
      = .ok (cmd, message_id))
    (hres : dictGet? st1.user_dict recv = some addr)
    (hsc : dictGet? st1.conn_dict addr = some sconn) :
    processFrame st addr header payload backend
      = (st1, [⟨sconn, cmd, relayedPayload message_id payload, false⟩,
               ⟨sconn, cmd, relayedPayload message_id payload, false⟩],
         none) := by
  simp only [processFrame, hmatch, hb, if_neg hrecv, hres, hsc]

theorem C10_self_message_double_delivery_witness :
    match_username_and_address ⟨[("a1", 1)], []⟩ "a1" "alice:alice:hi"
      = .ok (⟨[("a1", 1)], [("alice", "a1")]⟩, "alice") ∧
    ("alice" : String) ≠ "home" ∧
    send_message_to_backend 1 "alice:alice:hi" (.ok 0)
      = .ok (.HELLO_WORLD, none) ∧
    dictGet? [("alice", "a1")] "alice" = some "a1" ∧
    dictGet? [("a1", 1)] "a1" = some 1 ∧
    processFrame ⟨[("a1", 1)], []⟩ "a1" 1 "alice:alice:hi" (.ok 0)
      = (⟨[("a1", 1)], [("alice", "a1")]⟩,
         [⟨1, .HELLO_WORLD, relayedPayload none "alice:alice:hi", false⟩,
          ⟨1, .HELLO_WORLD, relayedPayload none "alice:alice:hi", false⟩],
         none) :=
  ⟨by decide, by decide, by decide, by decide, by decide,
   C10_self_message_double_delivery ⟨[("a1", 1)], []⟩
     ⟨[("a1", 1)], [("alice", "a1")]⟩ "a1" "alice:alice:hi" "alice" 1
     (.ok 0) .HELLO_WORLD none 1
     (by decide) (by decide) (by decide) (by decide) (by decide)⟩

theorem length_dictInsert_of_none {α : Type} {d : List (String × α)}
    {k : String} {v : α} (h : dictGet? d k = none) :
    (dictInsert d k v).length = d.length + 1 := by
  induction d with
  | nil => rfl
  | cons q rest ih =>
    obtain ⟨k', v'⟩ := q
    unfold dictGet? at h
    unfold dictInsert
    by_cases hk : k' = k
    · rw [if_pos hk] at h; simp at h
    · rw [if_neg hk] at h
      rw [if_neg hk, List.length_cons, List.length_cons, ih h]

theorem length_dictPop_of_isSome {α : Type} {d : List (String × α)}
    {k : String} (h : (dictGet? d k).isSome) :
    d.length = (dictPop d k).length + 1 := by
  induction d with
  | nil => simp [dictGet?] at h
  | cons q rest ih =>
    obtain ⟨k', v'⟩ := q
    unfold dictGet? at h
    unfold dictPop
    by_cases hk : k' = k
    · rw [if_pos hk]; rfl
    · rw [if_neg hk] at h
      rw [if_neg hk, List.length_cons, List.length_cons, ih h]

theorem dictInsert_eq_append_of_none {α : Type} {d : List (String × α)}
    {k : String} (v : α) (h : dictGet? d k = none) :
    dictInsert d k v = d ++ [(k, v)] := by
  induction d with
  | nil => rfl
  | cons q rest ih =>
    obtain ⟨k', v'⟩ := q
    unfold dictGet? at h
    unfold dictInsert
    by_cases hk : k' = k
    · rw [if_pos hk] at h; simp at h
    · rw [if_neg hk] at h
      rw [if_neg hk, ih h, List.cons_append]

theorem applySeq_conn_length (ops : List ConnOp) :
    ∀ st : ServerState, validSeq st.conn_dict ops = true →
    (applySeq st ops).1.conn_dict.length + countDisconnects ops
      = st.conn_dict.length + countConnects ops := by
  induction ops with
  | nil =>
    intro st _
    simp [applySeq, countConnects, countDisconnects]
  | cons op rest ih =>
    intro st hv
    cases op with
    | connect a c =>
      simp only [validSeq, Bool.and_eq_true, Option.isNone_iff_eq_none] at hv
      obtain ⟨hfresh, hrest⟩ := hv
      have hfst : (applySeq st (.connect a c :: rest)).1
          = (applySeq ⟨dictInsert st.conn_dict a c, st.user_dict⟩ rest).1 :=
        rfl
      have hlen := length_dictInsert_of_none (v := c) hfresh
      have hih : (applySeq ⟨dictInsert st.conn_dict a c, st.user_dict⟩
            rest).1.conn_dict.length + countDisconnects rest
          = (dictInsert st.conn_dict a c).length + countConnects rest :=
        ih ⟨dictInsert st.conn_dict a c, st.user_dict⟩ hrest
      simp only [countConnects, countDisconnects, hfst]
      omega
    | disconnect a =>
      simp only [validSeq, Bool.and_eq_true] at hv
      obtain ⟨hmem, hrest⟩ := hv
      have hfst : (applySeq st (.disconnect a :: rest)).1
          = (applySeq ⟨dictPop st.conn_dict a,
                       popFirstByValue st.user_dict a⟩ rest).1 := rfl
      have hlen := length_dictPop_of_isSome hmem
      have hih : (applySeq ⟨dictPop st.conn_dict a,
            popFirstByValue st.user_dict a⟩ rest).1.conn_dict.length
            + countDisconnects rest
          = (dictPop st.conn_dict a).length + countConnects rest :=
        ih ⟨dictPop st.conn_dict a, popFirstByValue st.user_dict a⟩ hrest
      simp only [countConnects, countDisconnects, hfst]
      omega

/-- C7 (confirmed): starting from an empty registry, any well-formed
sequence of N connects and M disconnects (fresh addresses on connect,
registered ones on disconnect, so N ≥ M at every point) leaves exactly
`N - M` live entries (first conjunct).  On accept the hub registers the
connection FIRST and then sends `CONN_NB`, `is_from_server=True`, with the
decimal string of the incremented count, to every registered connection
including the new one (second conjunct).  On disconnect the decremented
count is broadcast only to the remaining connections and only when at
least one remains (third conjunct). -/
theorem C7_conn_nb_accounting (ops : List ConnOp)
    (hv : validSeq [] ops = true) :
    (applySeq ⟨[], []⟩ ops).1.conn_dict.length
      = countConnects ops - countDisconnects ops
    ∧ (∀ (st : ServerState) (addr : String) (conn : Nat),
        dictGet? st.conn_dict addr = none →
        handle_new_connection st addr conn
          = (⟨st.conn_dict ++ [(addr, conn)], st.user_dict⟩,
             (st.conn_dict ++ [(addr, conn)]).map
               (fun p => ⟨p.2, .CONN_NB,
                          toString (st.conn_dict.length + 1), true⟩)))
    ∧ (∀ (st : ServerState) (addr : String),
        (st.conn_dict.map Prod.fst).Nodup →
        (dictGet? st.conn_dict addr).isSome →
        (display_disconnection st addr).1.conn_dict.length
            = st.conn_dict.length - 1
        ∧ (display_disconnection st addr).2
            = if 1 ≤ (dictPop st.conn_dict addr).length then
                (dictPop st.conn_dict addr).map
                  (fun p => ⟨p.2, .CONN_NB,
                             toString (dictPop st.conn_dict addr).length,
                             true⟩)
              else []) := by
  refine ⟨?_, ?_, ?_⟩
  · have h := applySeq_conn_length ops ⟨[], []⟩ hv
    simp only [List.length_nil] at h
    omega
  · intro st addr conn hfresh
    have hins : dictInsert st.conn_dict addr conn
        = st.conn_dict ++ [(addr, conn)] :=
      dictInsert_eq_append_of_none conn hfresh
    unfold handle_new_connection
    simp only [hins, List.length_append, List.length_singleton]
  · intro st addr hnd hsome
    constructor
    · have := length_dictPop_of_isSome hsome
      have hfst : (display_disconnection st addr).1.conn_dict
          = dictPop st.conn_dict addr := rfl
      rw [hfst]
      omega
    · have hfil : (dictPop st.conn_dict addr).filter (fun p => p.1 ≠ addr)
          = dictPop st.conn_dict addr :=
        List.filter_eq_self.mpr
          (fun p hp => by simpa using dictPop_all_ne hnd p hp)
      show (if 1 ≤ (dictPop st.conn_dict addr).length then
              ((dictPop st.conn_dict addr).filter
                  (fun p => p.1 ≠ addr)).map
                (fun p => (⟨p.2, .CONN_NB,
                            toString (dictPop st.conn_dict addr).length,
                            true⟩ : Send))
            else []) = _
      rw [hfil]

theorem C7_conn_nb_accounting_witness :
    validSeq [] [.connect "a1" 1, .connect "a2" 2, .disconnect "a1"] = true
    ∧ ((applySeq ⟨[], []⟩
          [.connect "a1" 1, .connect "a2" 2,
           .disconnect "a1"]).1.conn_dict.length
        = countConnects [.connect "a1" 1, .connect "a2" 2, .disconnect "a1"]
            - countDisconnects
                [.connect "a1" 1, .connect "a2" 2, .disconnect "a1"]
    ∧ (∀ (st : ServerState) (addr : String) (conn : Nat),
        dictGet? st.conn_dict addr = none →
        handle_new_connection st addr conn
          = (⟨st.conn_dict ++ [(addr, conn)], st.user_dict⟩,
             (st.conn_dict ++ [(addr, conn)]).map
               (fun p => ⟨p.2, .CONN_NB,
                          toString (st.conn_dict.length + 1), true⟩)))
    ∧ (∀ (st : ServerState) (addr : String),
        (st.conn_dict.map Prod.fst).Nodup →
        (dictGet? st.conn_dict addr).isSome →
        (display_disconnection st addr).1.conn_dict.length
            = st.conn_dict.length - 1
        ∧ (display_disconnection st addr).2
            = if 1 ≤ (dictPop st.conn_dict addr).length then
                (dictPop st.conn_dict addr).map
                  (fun p => ⟨p.2, .CONN_NB,
                             toString (dictPop st.conn_dict addr).length,
                             true⟩)
              else [])) :=
  ⟨by decide,
   C7_conn_nb_accounting
     [.connect "a1" 1, .connect "a2" 2, .disconnect "a1"] (by decide)⟩

end TCPHub
